import Mathlib

/-!
Verification of the Documentation Artifact Publisher of the Backstage
TechDocs plugin, against its specification.

The repository ships the publisher's test suite; the AwsS3 publisher
itself is modelled here from the specification (its data model in §3 and
its operation contracts in §4.1), with the exact error-message text fixed
by the assertions of the test suite.

The remote object store is a shallow association list from object keys to
object contents, where a put overwrites any previous binding of the same
key.  The local filesystem is an association list from directory paths to
directory trees.
-/

namespace TechDocsPublisher

/-- Modelled from the spec: `EntityLocator` identifies a documentation
owner by kind, namespace and name (§3). -/
structure EntityLocator where
  «namespace» : String
  kind : String
  name : String

/-- Modelled from the spec: a `PublishRequest` pairs an entity with the
local source directory holding its generated documentation (§3). -/
structure PublishRequest where
  entity : EntityLocator
  directory : String

/-- A node of a local directory tree: either a file with text content, or
a directory mapping child names to nodes. -/
inductive FsNode where
  | file (content : String)
  | dir (entries : List (String × FsNode))

/-- The local filesystem: an association list from directory paths to the
trees rooted there. -/
abbrev Fs := List (String × FsNode)

/-- The remote object store: an association list from object keys to
object contents. -/
abbrev Store := List (String × String)

/-- Join a child name with a relative path inside that child. -/
def joinRel (n rel : String) : String :=
  if rel = "" then n else n ++ "/" ++ rel

/-- Recursively enumerate every file under a node, as pairs of a relative
path and the file's content. -/
def listFiles : FsNode → List (String × String)
  | .file c => [("", c)]
  | .dir [] => []
  | .dir ((n, node) :: rest) =>
      (listFiles node).map (fun p => (joinRel n p.1, p.2)) ++
        listFiles (FsNode.dir rest)

/-- Write an object into the store, overwriting any previous binding of
the same key. -/
def putObject (s : Store) (k v : String) : Store :=
  (k, v) :: s.filter (fun p => !(p.1 == k))

/-- Upload a batch of key/content pairs in order. -/
def uploadAll (s : Store) (files : List (String × String)) : Store :=
  files.foldl (fun st f => putObject st f.1 f.2) s

/-- Modelled from the spec: the storage key prefix of an entity, formed
verbatim from the three locator fields in the order namespace, kind,
name (§3). -/
def entityRootDir (e : EntityLocator) : String :=
  e.«namespace» ++ "/" ++ e.kind ++ "/" ++ e.name

/-- The rejection message of `publish` for an unreadable source
directory: the publisher's own prefix around the underlying I/O error
text, exactly as asserted by the test suite. -/
def publishErrorMessage (dir : String) : String :=
  "Unable to upload file(s) to AWS S3. Error Failed to read template directory: ENOENT, no such file or directory '" ++ dir ++ "'"

/-- Modelled from the spec: `publish` enumerates every file under the
source directory and uploads each to the key
`{namespace}/{kind}/{name}/{relativePath}` (§4.1); a missing or
unreadable source directory rejects with the composed error message.  The
`Option String` component of a success is the promise's resolved value,
always `none` (undefined). -/
def publish (req : PublishRequest) (fs : Fs) (store : Store) :
    Except String (Option String × Store) :=
  match fs.lookup req.directory with
  | none => .error (publishErrorMessage req.directory)
  | some t =>
      .ok (none, uploadAll store ((listFiles t).map
        (fun p => (entityRootDir req.entity ++ "/" ++ p.1, p.2))))

/-- Whether the string `pre` is a prefix of the string `k`, decided on
the character lists. -/
def keyHasPrefix (pre k : String) : Bool :=
  pre.data.isPrefixOf k.data

/-- Modelled from the spec: `hasDocsBeenGenerated` checks whether any
object exists under the entity's key prefix, resolving a boolean and
never rejecting for a not-found condition (§4.1). -/
def hasDocsBeenGenerated (e : EntityLocator) (store : Store) : Bool :=
  store.any (fun p => keyHasPrefix (entityRootDir e ++ "/") p.1)

/-- The well-known key of the metadata document of an entity. -/
def techDocsMetadataKey (e : EntityLocator) : String :=
  entityRootDir e ++ "/techdocs_metadata.json"

/-- The rejection message of `fetchTechDocsMetadata` for an absent
metadata object, exactly as asserted by the test suite. -/
def metadataNotFoundMessage (key : String) : String :=
  "TechDocs metadata fetch failed, The file " ++ key ++ " doest not exist !"

/-- Modelled from the spec: `fetchTechDocsMetadata` reads the object at
`{namespace}/{kind}/{name}/techdocs_metadata.json` and returns its
content verbatim, rejecting with the not-found message when absent
(§4.1). -/
def fetchTechDocsMetadata (e : EntityLocator) (store : Store) :
    Except String String :=
  match store.lookup (techDocsMetadataKey e) with
  | some content => .ok content
  | none => .error (metadataNotFoundMessage (techDocsMetadataKey e))

/-- The content of the most recent upload of a key within a batch. -/
def findLast : List (String × String) → String → Option String
  | [], _ => none
  | (a, b) :: rest, k =>
      match findLast rest k with
      | some v => some v
      | none => if a == k then some b else none

theorem lookup_filter_ne (s : Store) (k k' : String) (h : (k' == k) = false) :
    List.lookup k' (s.filter (fun p => !(p.1 == k))) = List.lookup k' s := by
  induction s with
  | nil => rfl
  | cons a rest ih =>
      by_cases ha : a.1 = k
      · have hk' : (k' == a.1) = false := by
          simpa [ha] using h
        simp [List.filter, ha, List.lookup, hk', ih, h]
      · have : (a.1 == k) = false := by
          simpa using ha
        by_cases hk' : k' = a.1
        · simp [List.filter, this, List.lookup, hk']
        · have hk'' : (k' == a.1) = false := by simpa using hk'
          simp [List.filter, this, List.lookup, hk'', ih]

theorem lookup_putObject (s : Store) (k v k' : String) :
    List.lookup k' (putObject s k v) =
      if k' == k then some v else List.lookup k' s := by
  by_cases h : k' = k
  · simp [putObject, List.lookup, h]
  · have hb : (k' == k) = false := by simpa using h
    simp [putObject, List.lookup, hb, lookup_filter_ne s k k' hb]

theorem lookup_uploadAll (files : List (String × String)) (s : Store)
    (k : String) :
    List.lookup k (uploadAll s files) =
      match findLast files k with
      | some v => some v
      | none => List.lookup k s := by
  induction files generalizing s with
  | nil => simp [uploadAll, findLast]
  | cons f rest ih =>
      have hstep : uploadAll s (f :: rest) = uploadAll (putObject s f.1 f.2) rest := by
        simp [uploadAll]
      rw [hstep, ih]
      cases hfl : findLast rest k with
      | some v => simp [findLast, hfl]
      | none =>
          by_cases h : f.1 = k
          · have hb : (k == f.1) = true := by simpa using h.symm
            simp [findLast, hfl, lookup_putObject, hb, h]
          · have hb : (k == f.1) = false := by
              simpa using fun he => h he.symm
            have hb' : (f.1 == k) = false := by simpa using h
            simp [findLast, hfl, lookup_putObject, hb, hb']

theorem findLast_eq_none_of_not_mem (files : List (String × String))
    (k : String) (h : k ∉ files.map Prod.fst) : findLast files k = none := by
  induction files with
  | nil => rfl
  | cons f rest ih =>
      have hk : f.1 ≠ k := by
        intro he
        exact h (by simp [he])
      have hrest : k ∉ rest.map Prod.fst := by
        intro hm
        exact h (by simp [hm])
      have hb : (f.1 == k) = false := by simpa using hk
      simp [findLast, ih hrest, hb]

theorem findLast_of_nodup (files : List (String × String)) (k v : String)
    (hnd : (files.map Prod.fst).Nodup) (hm : (k, v) ∈ files) :
    findLast files k = some v := by
  induction files with
  | nil => exact absurd hm (by simp)
  | cons f rest ih =>
      rcases List.mem_cons.mp hm with he | hrest
      · subst he
        have hnot : k ∉ rest.map Prod.fst := by
          rw [List.map_cons] at hnd
          exact (List.nodup_cons.mp hnd).1
        simp [findLast, findLast_eq_none_of_not_mem rest k hnot]
      · have hnd' : (rest.map Prod.fst).Nodup := by
          rw [List.map_cons] at hnd
          exact (List.nodup_cons.mp hnd).2
        simp [findLast, ih hnd' hrest]

theorem string_data_ext (a b : String) (h : a.data = b.data) : a = b := by
  cases a; cases b; exact congrArg String.mk (by simpa using h)

theorem string_append_left_cancel (p a b : String) (h : p ++ a = p ++ b) :
    a = b := by
  have hd : p.data ++ a.data = p.data ++ b.data := by
    have := congrArg String.data h
    simpa [String.data_append] using this
  exact string_data_ext a b (List.append_cancel_left hd)

theorem string_append_assoc (a b c : String) : a ++ b ++ c = a ++ (b ++ c) := by
  apply string_data_ext
  simp [String.data_append, List.append_assoc]

theorem string_append_shift (a b c d : String) :
    ((a ++ b) ++ c) ++ d = a ++ ((b ++ c) ++ d) := by
  apply string_data_ext
  simp [String.data_append, List.append_assoc]

/-- Sample fixtures mirroring the test suite. -/
def sampleEntity : EntityLocator :=
  ⟨"test-namespace", "TestKind", "test-component-name"⟩

def sampleDir : String := "test-namespace/TestKind/test-component-name"

def sampleTree : FsNode :=
  .dir [("index.html", .file "ih"), ("404.html", .file "nf"),
    ("assets", .dir [("main.css", .file "css")])]

def sampleFs : Fs := [(sampleDir, sampleTree)]

/-- C1: for every PublishRequest whose source directory exists and is
readable, publish resolves successfully with no return value (undefined),
and every file present locally becomes retrievable at the remote key
{namespace}/{kind}/{name}/{relativePath}, the directory structure being
preserved through the relative paths. -/
theorem publish_success_retrievable (req : PublishRequest) (fs : Fs)
    (store : Store) (t : FsNode)
    (h : List.lookup req.directory fs = some t)
    (hnd : ((listFiles t).map Prod.fst).Nodup) :
    ∃ s1 : Store, publish req fs store = .ok (none, s1) ∧
      ∀ rel c, (rel, c) ∈ listFiles t →
        List.lookup (entityRootDir req.entity ++ "/" ++ rel) s1 = some c := by
  refine ⟨uploadAll store ((listFiles t).map
      (fun p => (entityRootDir req.entity ++ "/" ++ p.1, p.2))), ?_, ?_⟩
  · simp [publish, h]
  · intro rel c hm
    have hinj : Function.Injective
        (fun k : String => entityRootDir req.entity ++ "/" ++ k) := by
      intro a b hab
      exact string_append_left_cancel (entityRootDir req.entity ++ "/") a b hab
    have hmapeq : (((listFiles t).map
        (fun p => (entityRootDir req.entity ++ "/" ++ p.1, p.2))).map Prod.fst)
        = ((listFiles t).map Prod.fst).map
            (fun k => entityRootDir req.entity ++ "/" ++ k) := by
      simp [List.map_map, Function.comp]
    have hkeys : ((((listFiles t).map
        (fun p => (entityRootDir req.entity ++ "/" ++ p.1, p.2))).map
          Prod.fst)).Nodup := by
      rw [hmapeq]
      exact hnd.map hinj
    have hmem : (entityRootDir req.entity ++ "/" ++ rel, c) ∈
        (listFiles t).map
          (fun p => (entityRootDir req.entity ++ "/" ++ p.1, p.2)) :=
      List.mem_map_of_mem _ hm
    rw [lookup_uploadAll, findLast_of_nodup _ _ _ hkeys hmem]

/-- C2: for every PublishRequest whose source directory cannot be found,
publish rejects with an error whose message contains the underlying
"no such file or directory" I/O text and the literal attempted path, and
matches the pattern "Unable to upload file(s) to AWS S3. Error
<underlying message>". -/
theorem publish_missing_dir_rejects (req : PublishRequest) (fs : Fs)
    (store : Store) (h : List.lookup req.directory fs = none) :
    ∃ msg, publish req fs store = .error msg ∧
      (∃ p q, msg = p ++ "no such file or directory" ++ q) ∧
      (∃ p q, msg = p ++ req.directory ++ q) ∧
      (∃ u, msg = "Unable to upload file(s) to AWS S3. Error " ++ u) := by
  refine ⟨publishErrorMessage req.directory, by simp [publish, h], ?_, ?_, ?_⟩
  · refine ⟨"Unable to upload file(s) to AWS S3. Error Failed to read template directory: ENOENT, ",
      " '" ++ req.directory ++ "'", ?_⟩
    show publishErrorMessage req.directory = _
    unfold publishErrorMessage
    have hlit : ("Unable to upload file(s) to AWS S3. Error Failed to read template directory: ENOENT, "
          ++ "no such file or directory" ++ " '")
        = "Unable to upload file(s) to AWS S3. Error Failed to read template directory: ENOENT, no such file or directory '" :=
      rfl
    rw [← hlit, string_append_shift]
  · exact ⟨"Unable to upload file(s) to AWS S3. Error Failed to read template directory: ENOENT, no such file or directory '",
      "'", rfl⟩
  · refine ⟨"Failed to read template directory: ENOENT, no such file or directory '"
      ++ req.directory ++ "'", ?_⟩
    show publishErrorMessage req.directory = _
    unfold publishErrorMessage
    have hlit : ("Unable to upload file(s) to AWS S3. Error "
          ++ "Failed to read template directory: ENOENT, no such file or directory '")
        = "Unable to upload file(s) to AWS S3. Error Failed to read template directory: ENOENT, no such file or directory '" :=
      rfl
    rw [← hlit, string_append_shift]

/-- C9: when publish fails because the source directory is missing, the
rejected message embeds the wrapper text "Failed to read template
directory: " between the publisher's prefix and the underlying ENOENT
text; the full message is "Unable to upload file(s) to AWS S3. Error
Failed to read template directory: ENOENT, no such file or directory
'<path>'". -/
theorem publish_missing_dir_message_exact (req : PublishRequest) (fs : Fs)
    (store : Store) (h : List.lookup req.directory fs = none) :
    publish req fs store = .error
      ("Unable to upload file(s) to AWS S3. Error Failed to read template directory: ENOENT, no such file or directory '"
        ++ req.directory ++ "'") := by
  simp [publish, h, publishErrorMessage]

/-- C3: hasDocsBeenGenerated resolves true if and only if at least one
object exists under the entity's key prefix, and resolves false for an
entity with no published objects; being a total boolean function of the
store, it never rejects for a not-found condition. -/
theorem hasDocsBeenGenerated_iff_object_exists (e : EntityLocator)
    (store : Store) :
    (hasDocsBeenGenerated e store = true ↔
      ∃ p ∈ store, (entityRootDir e ++ "/").data <+: p.1.data) ∧
    hasDocsBeenGenerated e [] = false := by
  constructor
  · rw [hasDocsBeenGenerated, List.any_eq_true]
    constructor
    · rintro ⟨p, hp, hpre⟩
      exact ⟨p, hp, List.isPrefixOf_iff_prefix.mp hpre⟩
    · rintro ⟨p, hp, hpre⟩
      exact ⟨p, hp, List.isPrefixOf_iff_prefix.mpr hpre⟩
  · rfl

/-- C8 counterexample: a store holding only a 404.html object under the
entity's prefix, and no index.html object at all, still makes
hasDocsBeenGenerated resolve true, so the probe is not specifically for
index.html. -/
theorem hasDocs_true_without_index_object :
    hasDocsBeenGenerated ⟨"namespace", "kind", "name"⟩
        [("namespace/kind/name/404.html", "x")] = true
    ∧ List.lookup "namespace/kind/name/index.html"
        [("namespace/kind/name/404.html", "x")] = none := by
  constructor
  · decide
  · rfl

/-- C8 (amended): hasDocsBeenGenerated resolves true whenever any object
exists under the entity's key prefix; the presence of an index.html
object under the prefix is sufficient but not necessary. -/
theorem hasDocs_any_object_under_prefix_suffices (e : EntityLocator)
    (store : Store) (k v : String) (hk : (k, v) ∈ store)
    (hp : keyHasPrefix (entityRootDir e ++ "/") k = true) :
    hasDocsBeenGenerated e store = true := by
  rw [hasDocsBeenGenerated, List.any_eq_true]
  exact ⟨(k, v), hk, hp⟩

/-- C4: when the techdocs_metadata.json object of an entity is absent,
fetchTechDocsMetadata rejects with the not-found message "TechDocs
metadata fetch failed, The file <key> doest not exist !", which contains
the expected key path. -/
theorem fetchTechDocsMetadata_absent_rejects (e : EntityLocator)
    (store : Store)
    (h : List.lookup (techDocsMetadataKey e) store = none) :
    fetchTechDocsMetadata e store = .error
      ("TechDocs metadata fetch failed, The file "
        ++ (entityRootDir e ++ "/techdocs_metadata.json")
        ++ " doest not exist !")
    ∧ ∃ p q, metadataNotFoundMessage (techDocsMetadataKey e)
        = p ++ (entityRootDir e ++ "/techdocs_metadata.json") ++ q := by
  constructor
  · have h9 : List.lookup (entityRootDir e ++ "/techdocs_metadata.json")
        store = none := h
    simp [fetchTechDocsMetadata, h9, metadataNotFoundMessage,
      techDocsMetadataKey]
  · exact ⟨"TechDocs metadata fetch failed, The file ",
      " doest not exist !", rfl⟩

/-- C5: when the metadata object of an entity exists at
{namespace}/{kind}/{name}/techdocs_metadata.json, fetchTechDocsMetadata
resolves to exactly the stored content, verbatim. -/
theorem fetchTechDocsMetadata_verbatim (e : EntityLocator) (store : Store)
    (content : String)
    (h : List.lookup (techDocsMetadataKey e) store = some content) :
    fetchTechDocsMetadata e store = .ok content := by
  simp [fetchTechDocsMetadata, h]

/-- C6: every Publisher operation derives its storage keys from the three
locator fields verbatim and in the order namespace, kind, name: the key
prefix is namespace/kind/name/, the metadata key appends
techdocs_metadata.json to it, and publish uploads each file under a key
extending it with the file's relative path. -/
theorem operations_follow_locator_order (e : EntityLocator) (store : Store) :
    entityRootDir e ++ "/"
      = e.«namespace» ++ "/" ++ e.kind ++ "/" ++ e.name ++ "/"
    ∧ hasDocsBeenGenerated e store = store.any (fun p =>
        keyHasPrefix (e.«namespace» ++ "/" ++ e.kind ++ "/" ++ e.name ++ "/")
          p.1)
    ∧ fetchTechDocsMetadata e store =
        (match List.lookup
            (e.«namespace» ++ "/" ++ e.kind ++ "/" ++ e.name
              ++ "/techdocs_metadata.json") store with
         | some c => .ok c
         | none => .error (metadataNotFoundMessage
             (e.«namespace» ++ "/" ++ e.kind ++ "/" ++ e.name
               ++ "/techdocs_metadata.json")))
    ∧ ∀ (dir : String) (fs : Fs) (t : FsNode),
        List.lookup dir fs = some t →
        publish ⟨e, dir⟩ fs store = .ok (none, uploadAll store
          ((listFiles t).map (fun p =>
            (e.«namespace» ++ "/" ++ e.kind ++ "/" ++ e.name ++ "/" ++ p.1,
              p.2)))) := by
  refine ⟨rfl, rfl, rfl, ?_⟩
  intro dir fs t h
  simp [publish, h, entityRootDir]

/-- C7: publish is idempotent on the remote store: publishing the same
source directory twice yields the same final remote object set as
publishing it once, every key resolving to the same content and no
further keys existing. -/
theorem publish_idempotent (req : PublishRequest) (fs : Fs) (store : Store)
    (t : FsNode) (h : List.lookup req.directory fs = some t) :
    ∃ s1 s2 : Store, publish req fs store = .ok (none, s1)
      ∧ publish req fs s1 = .ok (none, s2)
      ∧ ∀ k, List.lookup k s2 = List.lookup k s1 := by
  refine ⟨uploadAll store ((listFiles t).map
      (fun p => (entityRootDir req.entity ++ "/" ++ p.1, p.2))),
    uploadAll (uploadAll store ((listFiles t).map
      (fun p => (entityRootDir req.entity ++ "/" ++ p.1, p.2))))
      ((listFiles t).map
        (fun p => (entityRootDir req.entity ++ "/" ++ p.1, p.2))),
    by simp [publish, h], by simp [publish, h], ?_⟩
  intro k
  rw [lookup_uploadAll, lookup_uploadAll]
  cases hfl : findLast ((listFiles t).map
      (fun p => (entityRootDir req.entity ++ "/" ++ p.1, p.2))) k with
  | some v => simp [hfl]
  | none => simp [hfl, lookup_uploadAll]

theorem publish_success_retrievable_witness :
    List.lookup sampleDir sampleFs = some sampleTree
    ∧ ((listFiles sampleTree).map Prod.fst).Nodup
    ∧ ∃ s1 : Store,
        publish ⟨sampleEntity, sampleDir⟩ sampleFs [] = .ok (none, s1) ∧
        ∀ rel c, (rel, c) ∈ listFiles sampleTree →
          List.lookup (entityRootDir sampleEntity ++ "/" ++ rel) s1
            = some c := by
  have hlf : listFiles sampleTree =
      [("index.html", "ih"), ("404.html", "nf"),
        ("assets/main.css", "css")] := by
    simp [sampleTree, listFiles, joinRel]
  have hnd : ((listFiles sampleTree).map Prod.fst).Nodup := by
    rw [hlf]
    decide
  exact ⟨rfl, hnd, publish_success_retrievable _ _ _ _ rfl hnd⟩

theorem publish_missing_dir_rejects_witness :
    List.lookup "wrong/path/to/generatedDirectory" sampleFs = none
    ∧ ∃ msg, publish ⟨sampleEntity, "wrong/path/to/generatedDirectory"⟩
          sampleFs [] = .error msg ∧
        (∃ p q, msg = p ++ "no such file or directory" ++ q) ∧
        (∃ p q, msg = p ++ "wrong/path/to/generatedDirectory" ++ q) ∧
        (∃ u, msg = "Unable to upload file(s) to AWS S3. Error " ++ u) :=
  ⟨rfl, publish_missing_dir_rejects _ _ _ rfl⟩

theorem publish_missing_dir_message_exact_witness :
    List.lookup "wrong/path/to/generatedDirectory" sampleFs = none
    ∧ publish ⟨sampleEntity, "wrong/path/to/generatedDirectory"⟩ sampleFs []
      = .error "Unable to upload file(s) to AWS S3. Error Failed to read template directory: ENOENT, no such file or directory 'wrong/path/to/generatedDirectory'" := by
  refine ⟨rfl, ?_⟩
  have hx := publish_missing_dir_message_exact
    ⟨sampleEntity, "wrong/path/to/generatedDirectory"⟩ sampleFs [] rfl
  simpa using hx

theorem hasDocs_any_object_under_prefix_suffices_witness :
    ("namespace/kind/name/index.html", "c") ∈
        [("namespace/kind/name/index.html", "c")]
    ∧ keyHasPrefix (entityRootDir ⟨"namespace", "kind", "name"⟩ ++ "/")
        "namespace/kind/name/index.html" = true
    ∧ hasDocsBeenGenerated ⟨"namespace", "kind", "name"⟩
        [("namespace/kind/name/index.html", "c")] = true :=
  ⟨by simp, by decide,
    hasDocs_any_object_under_prefix_suffices ⟨"namespace", "kind", "name"⟩
      [("namespace/kind/name/index.html", "c")]
      "namespace/kind/name/index.html" "c" (by simp) (by decide)⟩

theorem fetchTechDocsMetadata_absent_rejects_witness :
    List.lookup (techDocsMetadataKey sampleEntity) ([] : Store) = none
    ∧ (fetchTechDocsMetadata sampleEntity [] = .error
        ("TechDocs metadata fetch failed, The file "
          ++ (entityRootDir sampleEntity ++ "/techdocs_metadata.json")
          ++ " doest not exist !")
      ∧ ∃ p q, metadataNotFoundMessage (techDocsMetadataKey sampleEntity)
          = p ++ (entityRootDir sampleEntity ++ "/techdocs_metadata.json")
            ++ q) :=
  ⟨rfl, fetchTechDocsMetadata_absent_rejects _ _ rfl⟩

theorem fetchTechDocsMetadata_verbatim_witness :
    List.lookup (techDocsMetadataKey sampleEntity)
        [("test-namespace/TestKind/test-component-name/techdocs_metadata.json",
          "file-content")]
      = some "file-content"
    ∧ fetchTechDocsMetadata sampleEntity
        [("test-namespace/TestKind/test-component-name/techdocs_metadata.json",
          "file-content")]
      = .ok "file-content" := by
  have h5 : List.lookup (techDocsMetadataKey sampleEntity)
      [("test-namespace/TestKind/test-component-name/techdocs_metadata.json",
        "file-content")]
      = some "file-content" := rfl
  exact ⟨h5, fetchTechDocsMetadata_verbatim _ _ _ h5⟩

theorem operations_follow_locator_order_witness :
    List.lookup sampleDir sampleFs = some sampleTree
    ∧ publish ⟨sampleEntity, sampleDir⟩ sampleFs [] = .ok (none,
        uploadAll [] ((listFiles sampleTree).map (fun p =>
          ("test-namespace" ++ "/" ++ "TestKind" ++ "/"
            ++ "test-component-name" ++ "/" ++ p.1, p.2)))) :=
  ⟨rfl, (operations_follow_locator_order sampleEntity []).2.2.2
    sampleDir sampleFs sampleTree rfl⟩

theorem publish_idempotent_witness :
    List.lookup sampleDir sampleFs = some sampleTree
    ∧ ∃ s1 s2 : Store,
        publish ⟨sampleEntity, sampleDir⟩ sampleFs [] = .ok (none, s1)
        ∧ publish ⟨sampleEntity, sampleDir⟩ sampleFs s1 = .ok (none, s2)
        ∧ ∀ k, List.lookup k s2 = List.lookup k s1 :=
  ⟨rfl, publish_idempotent _ _ _ _ rfl⟩

end TechDocsPublisher
